import Mathlib

/-!
Verification development for the fleetpkg-mcp ingestion pipeline.

The definitions below are a shallow embedding of the Go sources:
the processor-tree flattener and attribute marshalling
(internal/fleetsql, FlattenProcessors and MarshalAttributes),
the relational projector helpers (jsonNullString, sqlStringEmtpyIsNull,
sqlNullBool, sqlNullInt64, the InsertVarParams and InsertFieldParams
construction in insertVar and insertField), the transactional writer
(WritePackages, createTables, insertPackage, txDone), and the query
surface (executeQuery).  Machine integers are modeled as Int, Go error
values as an explicit error tree, Go interface values as the GoVal
inductive, and SQL nullable columns as Option.
-/

/-- Models a Go error value: a leaf message (errors.New or fmt.Errorf
without the %w verb) or a wrapping error produced by fmt.Errorf with a
note, a colon and the %w verb. -/
inductive GoErr where
  | msg (s : String)
  | wrap (note : String) (inner : GoErr)
deriving DecidableEq

/-- Renders a GoErr the way Go renders wrapped errors: the wrapping note,
a colon and a space, then the inner error text. -/
def GoErr.render : GoErr → String
  | .msg s => s
  | .wrap note inner => note ++ ": " ++ inner.render

/-- Models a Go value of static type any (an interface value) as observed
through the reflect package and encoding/json, restricted to the kinds the
repository stores in attribute maps and optional columns.  slice and mapv
record whether the underlying Go slice or map is nil separately from the
element list, because reflect distinguishes a nil slice from an empty one.
unsupported stands for a non-nil value of a kind that encoding/json
rejects (func, chan, complex). -/
inductive GoVal where
  | nilAny
  | str (s : String)
  | int (n : Int)
  | bool (b : Bool)
  | slice (isNil : Bool) (elems : List GoVal)
  | mapv (isNil : Bool) (entries : List (String × GoVal))
  | unsupported

/-- reflect.ValueOf(v).IsValid(): false only for an untyped nil
interface. -/
def GoVal.isValid : GoVal → Bool
  | .nilAny => false
  | _ => true

/-- reflect Value.IsZero on the modeled kinds: the empty string, a zero
int, false, a nil slice and a nil map are the zero values of their types.
A non-nil empty slice or map is not the zero value.  The nilAny case is
unreachable behind the IsValid guard, and unsupported models a non-nil
func or chan value, which is not zero. -/
def GoVal.isZero : GoVal → Bool
  | .nilAny => false
  | .str s => s == ""
  | .int n => n == 0
  | .bool b => b == false
  | .slice isNil _ => isNil
  | .mapv isNil _ => isNil
  | .unsupported => false

/-- reflect Value.Kind() == reflect.Slice. -/
def GoVal.kindIsSlice : GoVal → Bool
  | .slice _ _ => true
  | _ => false

/-- reflect Value.Len() for slices; only consulted behind the slice-kind
guard. -/
def GoVal.goLen : GoVal → Nat
  | .slice _ es => es.length
  | _ => 0

/-- Escaping applied by encoding/json to string contents, modeled for the
quote and backslash characters, which covers every string this
development evaluates. -/
def jsonEscapeChar (c : Char) : String :=
  if c = '"' then "\\\"" else if c = '\\' then "\\\\" else String.singleton c

def jsonEscape (s : String) : String :=
  String.join (s.toList.map jsonEscapeChar)

/-- Insertion step of the key sort that encoding/json applies to map keys
before writing an object. -/
def insertPairByKey (kv : String × String) :
    List (String × String) → List (String × String)
  | [] => [kv]
  | x :: xs => if kv.1 ≤ x.1 then kv :: x :: xs else x :: insertPairByKey kv xs

/-- encoding/json writes object members in sorted key order. -/
def sortPairsByKey : List (String × String) → List (String × String)
  | [] => []
  | x :: xs => insertPairByKey x (sortPairsByKey xs)

mutual
/-- Models encoding/json Marshal on the modeled Go values; none models a
marshal error (an unsupported type somewhere in the value). -/
def goMarshal : GoVal → Option String
  | .nilAny => some "null"
  | .str s => some ("\"" ++ jsonEscape s ++ "\"")
  | .int n => some (toString n)
  | .bool b => some (if b then "true" else "false")
  | .unsupported => none
  | .slice true _ => some "null"
  | .slice false es =>
    match goMarshalList es with
    | none => none
    | some parts => some ("[" ++ String.intercalate "," parts ++ "]")
  | .mapv true _ => some "null"
  | .mapv false kvs =>
    match goMarshalEntries kvs with
    | none => none
    | some rendered =>
      some ("\x7b" ++ String.intercalate ","
        ((sortPairsByKey rendered).map
          (fun kv => "\"" ++ jsonEscape kv.1 ++ "\":" ++ kv.2)) ++ "\x7d")

/-- Marshals the elements of a slice in order; none if any element is
unsupported. -/
def goMarshalList : List GoVal → Option (List String)
  | [] => some []
  | v :: vs =>
    match goMarshal v, goMarshalList vs with
    | some s, some ss => some (s :: ss)
    | _, _ => none

/-- Marshals the values of map entries; none if any value is
unsupported. -/
def goMarshalEntries : List (String × GoVal) → Option (List (String × String))
  | [] => some []
  | (k, v) :: kvs =>
    match goMarshal v, goMarshalEntries kvs with
    | some s, some ss => some ((k, s) :: ss)
    | _, _ => none
end

/-- fleetsql.jsonNullString: null for an invalid or zero value and for an
empty slice; otherwise the JSON text.  The Go code discards the Marshal
error (j, _ := json.Marshal(v)), so an unsupported value yields a valid
empty string, not null. -/
def jsonNullString (v : GoVal) : Option String :=
  if ¬ v.isValid ∨ v.isZero then none
  else if v.kindIsSlice ∧ v.goLen = 0 then none
  else
    match goMarshal v with
    | some j => some j
    | none => some ""

/-- fleetsql.sqlStringEmtpyIsNull (sic): null for the empty string. -/
def sqlStringEmtpyIsNull (s : String) : Option String :=
  if s = "" then none else some s

/-- fleetsql.sqlNullString on a Go *string modeled as Option String. -/
def sqlNullString (s : Option String) : Option String := s

/-- fleetsql.sqlNullBool on a Go *bool modeled as Option Bool. -/
def sqlNullBool (b : Option Bool) : Option Bool := b

/-- fleetsql.sqlNullInt64 on a Go *int modeled as Option Int. -/
def sqlNullInt64 (i : Option Int) : Option Int := i

/-- strconv quoting used by the %q verb, modeled with the same escaping
as the JSON encoder. -/
def strconvQuote (s : String) : String :=
  "\"" ++ jsonEscape s ++ "\""

/-- path/filepath Base: the last element of a slash-separated path after
trailing slashes are removed; "." for the empty path and "/" for a path
of only slashes. -/
def filepathBase (p : String) : String :=
  if p = "" then "."
  else
    let cs := (p.toList.reverse.dropWhile (fun c => c = '/')).reverse
    if cs = [] then "/"
    else String.mk (cs.reverse.takeWhile (fun c => c ≠ '/')).reverse

/-- fleetpkg.Processor: declared type, attribute map, optional on_failure
branch (a Go slice of pointers, so entries can be nil), and source
location metadata.  Go maps with distinct keys are modeled as association
lists; a nil attribute map and an empty one are identified, which is the
only observation the repository makes of them. -/
inductive Processor where
  | mk (type_ : String) (attributes : List (String × GoVal))
       (onFailure : List (Option Processor))
       (path : String) (line : Int) (column : Int)

def Processor.type_ : Processor → String
  | .mk t _ _ _ _ _ => t

def Processor.attributes : Processor → List (String × GoVal)
  | .mk _ a _ _ _ _ => a

def Processor.onFailure : Processor → List (Option Processor)
  | .mk _ _ o _ _ _ => o

def Processor.path : Processor → String
  | .mk _ _ _ p _ _ => p

def Processor.line : Processor → Int
  | .mk _ _ _ _ l _ => l

def Processor.column : Processor → Int
  | .mk _ _ _ _ _ c => c

/-- fleetsql.FlatProcessor: a flattened processor with its JSON Pointer
location. -/
structure FlatProcessor where
  type_ : String
  attributes : List (String × GoVal)
  jsonPointer : String
  filePath : String
  line : Int
  column : Int

/-- Go map assignment m[k] = v on the association-list model: overwrite
in place when the key is present, append otherwise. -/
def mapSet (m : List (String × GoVal)) (k : String) (v : GoVal) :
    List (String × GoVal) :=
  if m.any (fun kv => kv.1 == k) then
    m.map (fun kv => if kv.1 == k then (k, v) else kv)
  else m ++ [(k, v)]

/-- Go map read m[k] on the association-list model. -/
def mapGet (m : List (String × GoVal)) (k : String) : Option GoVal :=
  (m.find? (fun kv => kv.1 == k)).map (fun kv => kv.2)

/-- The loop in FlattenProcessors that builds the serialized on_failure
summary: one single-key object per branch entry, keyed by the entry type
and holding its attribute map.  The loop dereferences each entry without
a nil check, so a nil branch entry is a nil-pointer panic, modeled as
none. -/
def summaryList : List (Option Processor) → Option (List GoVal)
  | [] => some []
  | none :: _ => none
  | some (.mk t attrs _ _ _ _) :: rest =>
    match summaryList rest with
    | none => none
    | some tail => some (GoVal.mapv false [(t, GoVal.mapv false attrs)] :: tail)

mutual
/-- The loop of fleetsql.FlattenProcessors from position i of the input
list onward, where i is the Go range index.  The outer Option models a
panic (nil dereference in the summary loop); the inner Option GoErr is
the Go error result.  On an error from a recursive call the Go function
returns nil, err, discarding records accumulated so far, which the error
branches reproduce. -/
def flattenFrom : List (Option Processor) → String → Nat →
    Option (List FlatProcessor × Option GoErr)
  | [], _, _ => some ([], none)
  | none :: rest, basePath, i => flattenFrom rest basePath (i + 1)
  | some p :: rest, basePath, i =>
    match flattenOne p basePath i with
    | none => none
    | some (_, some e) => some ([], some e)
    | some (selfRecs, none) =>
      match flattenFrom rest basePath (i + 1) with
      | none => none
      | some (_, some e) => some ([], some e)
      | some (tailRecs, none) => some (selfRecs ++ tailRecs, none)

/-- One iteration of the FlattenProcessors loop body for a non-nil entry
at range index i: compute the JSON Pointer basePath/i/type, flatten a
non-empty on_failure branch under jsonPointer/on_failure, emit those
records before the own record, and embed the branch summary in the own
attribute map under the on_failure key. -/
def flattenOne : Processor → String → Nat →
    Option (List FlatProcessor × Option GoErr)
  | .mk t attrs onF path line col, basePath, i =>
    let jsonPointer := basePath ++ "/" ++ toString i ++ "/" ++ t
    if onF.length > 0 then
      match flattenFrom onF (jsonPointer ++ "/on_failure") 0 with
      | none => none
      | some (_, some e) => some ([], some e)
      | some (onFailureFlat, none) =>
        match summaryList onF with
        | none => none
        | some summ =>
          let attrs2 := mapSet attrs "on_failure" (GoVal.slice false summ)
          some (onFailureFlat ++ [⟨t, attrs2, jsonPointer, path, line, col⟩],
                none)
    else
      some ([⟨t, attrs, jsonPointer, path, line, col⟩], none)
end

/-- fleetsql.FlattenProcessors: recursively flattens a list of processors
from range index 0. -/
def FlattenProcessors (processors : List (Option Processor))
    (basePath : String) : Option (List FlatProcessor × Option GoErr) :=
  flattenFrom processors basePath 0

/-- The error value carried by a Go json.Marshal failure, as wrapped by
FlatProcessor.MarshalAttributes. -/
def jsonUnsupportedErr : GoErr := GoErr.msg "json: unsupported type"

/-- fleetsql.FlatProcessor.MarshalAttributes: the empty map marshals to
the empty string with no error; a marshal failure is wrapped with a fixed
note that does not mention the processor or its pointer. -/
def MarshalAttributes (fp : FlatProcessor) : String × Option GoErr :=
  if fp.attributes.length = 0 then ("", none)
  else
    match goMarshal (GoVal.mapv false fp.attributes) with
    | some s => (s, none)
    | none =>
      ("", some (GoErr.wrap "failed to marshal processor attributes"
                   jsonUnsupportedErr))

/-- fleetpkg.VarOption. -/
structure VarOption where
  value : String := ""
  text : String := ""

/-- fleetpkg.Var: the fields read by fleetsql.insertVar.  Go zero values
are the structure defaults. -/
structure Var where
  name : String := ""
  default_ : GoVal := .nilAny
  description : String := ""
  type_ : String := ""
  title : String := ""
  multi : Option Bool := none
  required : Option Bool := none
  secret : Option Bool := none
  showUser : Option Bool := none
  hideInDeploymentModes : GoVal := .nilAny
  options : List VarOption := []
  path : String := ""
  line : Int := 0
  column : Int := 0

/-- database.InsertVarParams: the vars table columns written by
insertVar. -/
structure InsertVarParams where
  name : String
  defaultValue : Option String
  description : Option String
  type_ : String
  title : Option String
  multi : Option Bool
  required : Option Bool
  secret : Option Bool
  showUser : Option Bool
  hideInDeploymentModes : Option String
  filePath : String
  lineNumber : Int
  col : Int
deriving DecidableEq

/-- The InsertVarParams literal built by fleetsql.insertVar.  Description
and Title are stored with Valid set unconditionally; Default and
HideInDeploymentModes go through jsonNullString. -/
def insertVarParams (v : Var) : InsertVarParams :=
  { name := v.name,
    defaultValue := jsonNullString v.default_,
    description := some v.description,
    type_ := v.type_,
    title := some v.title,
    multi := sqlNullBool v.multi,
    required := sqlNullBool v.required,
    secret := sqlNullBool v.secret,
    showUser := sqlNullBool v.showUser,
    hideInDeploymentModes := jsonNullString v.hideInDeploymentModes,
    filePath := v.path,
    lineNumber := v.line,
    col := v.column }

/-- go-ecs Field: the attributes of the external shared definition read
by fleetsql.insertField. -/
structure EcsField where
  dataType : String := ""
  pattern : String := ""
  array : Bool := false
  description : String := ""

/-- fleetpkg.Field (named FleetField here because Field is taken by the
algebra hierarchy): the fields read by fleetsql.insertField.  Go zero
values are the structure defaults. -/
structure FleetField where
  name : String := ""
  type_ : String := ""
  description : String := ""
  value : GoVal := .nilAny
  example_ : GoVal := .nilAny
  pattern : String := ""
  dateFormat : String := ""
  analyzer : String := ""
  searchAnalyzer : String := ""
  ignoreAbove : Int := 0
  multiFields : GoVal := .nilAny
  enabled : Option Bool := none
  dynamic : String := ""
  index : Option Bool := none
  docValues : Option Bool := none
  copyTo : String := ""
  scalingFactor : Option Int := none
  aliasTargetPath : String := ""
  normalize : GoVal := .nilAny
  normalizer : String := ""
  nullValue : GoVal := .nilAny
  dimension : Option Bool := none
  metricType : String := ""
  external : String := ""
  yamlPath : String := ""
  path : String := ""
  line : Int := 0
  column : Int := 0

/-- database.InsertFieldParams: the fields table columns written by
insertField. -/
structure InsertFieldParams where
  name : String
  type_ : Option String
  description : Option String
  value : Option String
  example_ : Option String
  pattern : Option String
  dateFormat : Option String
  analyzer : Option String
  searchAnalyzer : Option String
  ignoreAbove : Option Int
  multiFields : Option String
  enabled : Option Bool
  dynamic : Option String
  indexed : Option Bool
  docValues : Option Bool
  copyTo : Option String
  scalingFactor : Option Int
  aliasTargetPath : Option String
  normalize : Option String
  normalizer : Option String
  nullValue : Option String
  dimension : Option Bool
  metricType : Option String
  external : Option String
  yamlPath : Option String
  filePath : String
  lineNumber : Int
  col : Int
  unresolvable : Option Int := none
deriving DecidableEq

/-- The InsertFieldParams construction in fleetsql.insertField, including
the merge of external ecs properties: each merge line guards on the
locally built column being null before backfilling from the resolved
definition.  The normalize line reproduces the source exactly: it guards
on the Normalizer column but assigns the Normalize column.  When the
reference does not resolve, the row is flagged unresolvable. -/
def insertFieldParams (f : FleetField) (externalDef : Option EcsField) :
    InsertFieldParams :=
  let p : InsertFieldParams :=
    { name := f.name,
      type_ := sqlStringEmtpyIsNull f.type_,
      description := sqlStringEmtpyIsNull f.description,
      value := jsonNullString f.value,
      example_ := jsonNullString f.example_,
      pattern := sqlStringEmtpyIsNull f.pattern,
      dateFormat := sqlStringEmtpyIsNull f.dateFormat,
      analyzer := sqlStringEmtpyIsNull f.analyzer,
      searchAnalyzer := sqlStringEmtpyIsNull f.searchAnalyzer,
      ignoreAbove := if f.ignoreAbove > 0 then some f.ignoreAbove else none,
      multiFields := jsonNullString f.multiFields,
      enabled := sqlNullBool f.enabled,
      dynamic := sqlStringEmtpyIsNull f.dynamic,
      indexed := sqlNullBool f.index,
      docValues := sqlNullBool f.docValues,
      copyTo := sqlStringEmtpyIsNull f.copyTo,
      scalingFactor := sqlNullInt64 f.scalingFactor,
      aliasTargetPath := sqlStringEmtpyIsNull f.aliasTargetPath,
      normalize := jsonNullString f.normalize,
      normalizer := sqlStringEmtpyIsNull f.normalizer,
      nullValue := jsonNullString f.nullValue,
      dimension := sqlNullBool f.dimension,
      metricType := sqlStringEmtpyIsNull f.metricType,
      external := sqlStringEmtpyIsNull f.external,
      yamlPath := sqlStringEmtpyIsNull f.yamlPath,
      filePath := f.path,
      lineNumber := f.line,
      col := f.column }
  match externalDef with
  | some ext =>
    let p := if p.type_ = none ∧ ext.dataType ≠ "" then
        { p with type_ := sqlStringEmtpyIsNull ext.dataType } else p
    let p := if p.pattern = none ∧ ext.pattern ≠ "" then
        { p with pattern := sqlStringEmtpyIsNull ext.pattern } else p
    let p := if p.normalizer = none ∧ ext.array then
        { p with
          normalize := jsonNullString (GoVal.slice false [GoVal.str "array"]) }
      else p
    let p := if p.description = none ∧ ext.description ≠ "" then
        { p with description := sqlStringEmtpyIsNull ext.description } else p
    p
  | none =>
    if f.external = "ecs" then { p with unresolvable := some 1 } else p

/-- The outcome of running a piece of Go code that can return normally,
return an error, or panic (crash): a panic propagates and the function
never returns. -/
inductive GoOutcome (α : Type) where
  | crash
  | err (e : GoErr)
  | ok (a : α)

/-- One row of the SQLite store, restricted to the tables the modeled
part of insertPackage writes.  Integer surrogate keys are carried in the
row. -/
inductive Row where
  | integration (id : Int)
      (name filePath dirName title version description type_ : String)
  | integrationCategory (integrationId : Int) (category : String)
  | varRow (id : Int) (p : InsertVarParams)
  | varOption (id : Int) (varId : Int) (value text : Option String)
  | integrationVar (integrationId varId : Int)
  | dataStream (id : Int) (integrationId : Int) (name filePath title : String)
  | ingestPipeline (id : Int) (dataStreamId : Int)
      (name description : Option String) (version : Option Int)
      (meta : Option String) (filePath : String)
  | ingestProcessor (id : Int) (ingestPipelineId : Int) (type_ : String)
      (attributes : Option String) (jsonPointer filePath : String)
      (lineNumber col : Int)
deriving DecidableEq

/-- An open SQLite transaction: the rows visible inside it and the next
surrogate key. -/
structure TxState where
  rows : List Row
  nextId : Int
deriving DecidableEq

/-- The SQLite database: committed rows, the surrogate key counter, and
whether createTables has run. -/
structure DB where
  schemaReady : Bool := false
  rows : List Row := []
  nextId : Int := 1
deriving DecidableEq

/-- An insert statement that returns the generated key (sqlc :one).  The
oracle models the SQL engine: the error, if any, that inserting this row
reports. -/
def txInsert (oracle : Row → Option GoErr) (tx : TxState) (mk : Int → Row) :
    GoOutcome (Int × TxState) :=
  let id := tx.nextId
  let r := mk id
  match oracle r with
  | some e => .err e
  | none => .ok (id, ⟨tx.rows ++ [r], id + 1⟩)

/-- An insert statement that returns no key (sqlc :exec). -/
def txExec (oracle : Row → Option GoErr) (tx : TxState) (r : Row) :
    GoOutcome TxState :=
  match oracle r with
  | some e => .err e
  | none => .ok ⟨tx.rows ++ [r], tx.nextId⟩

/-- path/filepath Dir, simplified to slash-separated paths without
duplicate-slash cleanup: everything before the last slash, "." when there
is no slash, "/" when only the root remains. -/
def filepathDir (p : String) : String :=
  let cs := p.toList
  if cs.all (fun c => c ≠ '/') then "."
  else
    let kept := (cs.reverse.dropWhile (fun c => c ≠ '/')).reverse
    let trimmed := (kept.reverse.dropWhile (fun c => c = '/')).reverse
    if trimmed = [] then "/" else String.mk trimmed

/-- fleetpkg manifest data read by the modeled part of insertPackage. -/
structure Manifest where
  name : String := ""
  path : String := ""
  title : String := ""
  version : String := ""
  description : String := ""
  type_ : String := ""
  categories : List String := []
  vars : List Var := []

/-- A data stream ingest pipeline as read by insertPackage. -/
structure Pipeline where
  description : String := ""
  version : Option Int := none
  meta : GoVal := .nilAny
  path : String := ""
  processors : List (Option Processor) := []
  onFailure : List (Option Processor) := []

/-- A data stream: the Go map of pipelines keyed by name is modeled as an
association list in a fixed iteration order. -/
structure DataStream where
  path : String := ""
  title : String := ""
  pipelines : List (String × Pipeline) := []

/-- fleetpkg.Integration restricted to the sub-entities covered by the
modeled part of insertPackage. -/
structure Integration where
  manifest : Manifest := {}
  dataStreams : List DataStream := []
  path : String := ""

/-- fleetsql.insertManifest: insert the integrations row and return its
generated key.  The columns beyond the modeled subset are straight-line
field mappings with no control flow. -/
def insertManifest (oracle : Row → Option GoErr) (tx : TxState)
    (pkg : Integration) : GoOutcome (Int × TxState) :=
  let m := pkg.manifest
  txInsert oracle tx (fun id =>
    Row.integration id m.name m.path (filepathBase (filepathDir m.path))
      m.title m.version m.description m.type_)

/-- The integration categories loop of insertPackage. -/
def insertCategories (oracle : Row → Option GoErr) (integId : Int) :
    List String → TxState → GoOutcome TxState
  | [], tx => .ok tx
  | c :: rest, tx =>
    match txExec oracle tx (Row.integrationCategory integId c) with
    | .crash => .crash
    | .err e => .err e
    | .ok tx1 => insertCategories oracle integId rest tx1

/-- The var options loop of fleetsql.insertVar. -/
def insertVarOptions (oracle : Row → Option GoErr) (varId : Int) :
    List VarOption → TxState → GoOutcome TxState
  | [], tx => .ok tx
  | opt :: rest, tx =>
    match txInsert oracle tx (fun id =>
        Row.varOption id varId (sqlStringEmtpyIsNull opt.value)
          (sqlStringEmtpyIsNull opt.text)) with
    | .crash => .crash
    | .err e => .err e
    | .ok (_, tx1) => insertVarOptions oracle varId rest tx1

/-- fleetsql.insertVar: insert the vars row, then its options; returns
the generated var key. -/
def insertVar (oracle : Row → Option GoErr) (tx : TxState) (v : Var) :
    GoOutcome (Int × TxState) :=
  match txInsert oracle tx (fun id => Row.varRow id (insertVarParams v)) with
  | .crash => .crash
  | .err e => .err e
  | .ok (id, tx1) =>
    match insertVarOptions oracle id v.options tx1 with
    | .crash => .crash
    | .err e => .err e
    | .ok tx2 => .ok (id, tx2)

/-- The integration top-level variables loop of insertPackage: insertVar
followed by the integration_vars join row. -/
def insertIntegrationVars (oracle : Row → Option GoErr) (integId : Int) :
    List Var → TxState → GoOutcome TxState
  | [], tx => .ok tx
  | v :: rest, tx =>
    match insertVar oracle tx v with
    | .crash => .crash
    | .err e => .err e
    | .ok (varId, tx1) =>
      match txExec oracle tx1 (Row.integrationVar integId varId) with
      | .crash => .crash
      | .err e => .err e
      | .ok tx2 => insertIntegrationVars oracle integId rest tx2

/-- The flattened-processor insertion loop of insertPackage: marshal the
attributes (wrapping a failure with a fixed note), then insert the row
(wrapping a failure with the processor type and pointer). -/
def insertProcessorRows (oracle : Row → Option GoErr) (pipelineId : Int) :
    List FlatProcessor → TxState → GoOutcome TxState
  | [], tx => .ok tx
  | proc :: rest, tx =>
    match MarshalAttributes proc with
    | (_, some e) =>
      .err (GoErr.wrap "failed to marshal processor attributes" e)
    | (attrs, none) =>
      match txInsert oracle tx (fun id =>
          Row.ingestProcessor id pipelineId proc.type_
            (sqlStringEmtpyIsNull attrs) proc.jsonPointer proc.filePath
            proc.line proc.column) with
      | .crash => .crash
      | .err e =>
        .err (GoErr.wrap ("failed to insert processor " ++ proc.type_ ++
          " at " ++ proc.jsonPointer) e)
      | .ok (_, tx1) => insertProcessorRows oracle pipelineId rest tx1

/-- The global on_failure processor insertion loop of insertPackage, with
its own wrapping notes. -/
def insertOnFailureRows (oracle : Row → Option GoErr) (pipelineId : Int) :
    List FlatProcessor → TxState → GoOutcome TxState
  | [], tx => .ok tx
  | proc :: rest, tx =>
    match MarshalAttributes proc with
    | (_, some e) =>
      .err (GoErr.wrap "failed to marshal on_failure processor attributes" e)
    | (attrs, none) =>
      match txInsert oracle tx (fun id =>
          Row.ingestProcessor id pipelineId proc.type_
            (sqlStringEmtpyIsNull attrs) proc.jsonPointer proc.filePath
            proc.line proc.column) with
      | .crash => .crash
      | .err e =>
        .err (GoErr.wrap ("failed to insert on_failure processor " ++
          proc.type_ ++ " at " ++ proc.jsonPointer) e)
      | .ok (_, tx1) => insertOnFailureRows oracle pipelineId rest tx1

/-- One iteration of the ingest pipelines loop of insertPackage: insert
the pipeline row, flatten and insert its processors under /processors,
then, when a global on_failure branch exists, flatten and insert it under
/on_failure. -/
def insertPipelineRows (oracle : Row → Option GoErr) (dsId : Int)
    (name : String) (pl : Pipeline) (tx : TxState) : GoOutcome TxState :=
  match txInsert oracle tx (fun id =>
      Row.ingestPipeline id dsId (sqlStringEmtpyIsNull name)
        (sqlStringEmtpyIsNull pl.description) (sqlNullInt64 pl.version)
        (jsonNullString pl.meta) pl.path) with
  | .crash => .crash
  | .err e => .err e
  | .ok (plId, tx1) =>
    match FlattenProcessors pl.processors "/processors" with
    | none => .crash
    | some (_, some e) =>
      .err (GoErr.wrap ("failed to flatten processors for pipeline " ++ name) e)
    | some (procs, none) =>
      match insertProcessorRows oracle plId procs tx1 with
      | .crash => .crash
      | .err e => .err e
      | .ok tx2 =>
        if pl.onFailure.length > 0 then
          match FlattenProcessors pl.onFailure "/on_failure" with
          | none => .crash
          | some (_, some e) =>
            .err (GoErr.wrap
              ("failed to flatten on_failure processors for pipeline " ++ name)
              e)
          | some (ofprocs, none) =>
            insertOnFailureRows oracle plId ofprocs tx2
        else .ok tx2

/-- The pipelines loop of insertPackage over one data stream. -/
def insertPipelines (oracle : Row → Option GoErr) (dsId : Int) :
    List (String × Pipeline) → TxState → GoOutcome TxState
  | [], tx => .ok tx
  | (name, pl) :: rest, tx =>
    match insertPipelineRows oracle dsId name pl tx with
    | .crash => .crash
    | .err e => .err e
    | .ok tx1 => insertPipelines oracle dsId rest tx1

/-- One iteration of the data streams loop of insertPackage: the
data_streams row, then its pipelines. -/
def insertDataStreamRows (oracle : Row → Option GoErr) (integId : Int)
    (ds : DataStream) (tx : TxState) : GoOutcome TxState :=
  match txInsert oracle tx (fun id =>
      Row.dataStream id integId (filepathBase ds.path) ds.path ds.title) with
  | .crash => .crash
  | .err e => .err e
  | .ok (dsId, tx1) => insertPipelines oracle dsId ds.pipelines tx1

/-- The data streams loop of insertPackage. -/
def insertDataStreams (oracle : Row → Option GoErr) (integId : Int) :
    List DataStream → TxState → GoOutcome TxState
  | [], tx => .ok tx
  | ds :: rest, tx =>
    match insertDataStreamRows oracle integId ds tx with
    | .crash => .crash
    | .err e => .err e
    | .ok tx1 => insertDataStreams oracle integId rest tx1

/-- The body of fleetsql.insertPackage inside its transaction, covering
the manifest row, categories, top-level variables (with options and join
rows) and data streams with ingest pipelines and flattened processors, in
source order.  The remaining sub-entity loops of the Go function (icons,
screenshots, discovery fields, build manifest, policy templates, streams,
fields, sample events, transforms, changelog) repeat the identical
insert-or-return-error pattern between these and are not needed by the
claims. -/
def insertPackageBody (oracle : Row → Option GoErr) (tx : TxState)
    (pkg : Integration) : GoOutcome TxState :=
  match insertManifest oracle tx pkg with
  | .crash => .crash
  | .err e => .err e
  | .ok (integId, tx1) =>
    match insertCategories oracle integId pkg.manifest.categories tx1 with
    | .crash => .crash
    | .err e => .err e
    | .ok tx2 =>
      match insertIntegrationVars oracle integId pkg.manifest.vars tx2 with
      | .crash => .crash
      | .err e => .err e
      | .ok tx3 => insertDataStreams oracle integId pkg.dataStreams tx3

/-- fleetsql.insertPackage: begin a transaction on the database, run the
body, then finalize through the deferred txDone: commit when no error was
returned, roll back otherwise so the database is unchanged.  Commit and
rollback are modeled as succeeding, so errors.Join(err, rollbackErr)
collapses to err. -/
def insertPackage (oracle : Row → Option GoErr) (db : DB)
    (pkg : Integration) : GoOutcome (DB × Option GoErr) :=
  match insertPackageBody oracle ⟨db.rows, db.nextId⟩ pkg with
  | .crash => .crash
  | .err e => .ok (db, some e)
  | .ok tx => .ok ({ db with rows := tx.rows, nextId := tx.nextId }, none)

/-- fleetsql.createTables: the fixed create-if-absent DDL statements run
in their own transaction before any package; the DDL itself is modeled as
always succeeding. -/
def createTables (db : DB) : DB × Option GoErr :=
  ({ db with schemaReady := true }, none)

/-- The package loop of fleetsql.WritePackages: on the first package
whose insertPackage returns an error, stop and wrap the error with the
quoted base name of the package path. -/
def writeLoop (oracle : Row → Option GoErr) (db : DB) :
    List Integration → GoOutcome (DB × Option GoErr)
  | [] => .ok (db, none)
  | pkg :: rest =>
    match insertPackage oracle db pkg with
    | .crash => .crash
    | .err e => .err e
    | .ok (db1, some e) =>
      .ok (db1, some (GoErr.wrap
        ("failed inserting " ++ strconvQuote (filepathBase pkg.path)) e))
    | .ok (db1, none) => writeLoop oracle db1 rest

/-- fleetsql.WritePackages: create the tables, then write each package in
its own transaction. -/
def WritePackages (oracle : Row → Option GoErr) (db : DB)
    (pkgs : List Integration) : GoOutcome (DB × Option GoErr) :=
  match createTables db with
  | (db1, some e) => .ok (db1, some (GoErr.wrap "failed creating tables" e))
  | (db1, none) => writeLoop oracle db1 pkgs

/-- The result of one execute-query request as seen by the caller: the
structured initializing-retry-later signal, a query error carried in the
result payload, or the rows. -/
inductive QueryOutcome where
  | notReady
  | queryError (message : String)
  | rows (payload : List (List (String × GoVal)))

/-- A published read-only store handle: what executing a statement
against it returns. -/
structure StoreHandle where
  exec : String → Except String (List (List (String × GoVal)))

/-- Modelled from the spec: the executeQuery variant that consults the
atomically published store reference is not under src/ (the copy of
internal/mcp/mcp.go under src/ still receives the store handle directly,
while its caller in the main package already passes an atomic pointer
that is only set after the first successful build).  Per spec section
4.5, execute-query returns the structured initializing-retry-later result
while no store has ever been published, executes against the published
store otherwise, and surfaces a store rejection as a query error carried
in the result, distinct from the not-ready signal. -/
def executeQuery (store : Option StoreHandle) (statement : String) :
    QueryOutcome :=
  match store with
  | none => .notReady
  | some s =>
    match s.exec statement with
    | .error m => .queryError ("ERROR: failed to execute query: " ++ m)
    | .ok rs => .rows rs

/-- A minimal processor with no failure branch, used as a concrete
witness input. -/
def procW : Processor := .mk "set" [] [] "w.yml" 1 2

/-- Branch handler B of the spec pipeline shape [A(fails to [B]), C]. -/
def procB : Processor :=
  .mk "set" [("field", GoVal.str "error.message")] [] "p.yml" 5 9

/-- Processor A with the one-element failure branch [B]. -/
def procA : Processor :=
  .mk "rename" [("field", GoVal.str "old")] [some procB] "p.yml" 3 7

/-- Plain trailing processor C. -/
def procC : Processor :=
  .mk "convert" [("field", GoVal.str "bytes")] [] "p.yml" 8 7

/-- An SQL engine model that rejects every vars-row insert, as a concrete
failing backend. -/
def c5Oracle : Row → Option GoErr
  | Row.varRow _ _ => some (GoErr.msg "UNIQUE constraint failed: vars.id")
  | _ => none

def c5Var : Var := { name := "interval", type_ := "text" }

/-- A package whose row graph reaches a vars-row insert. -/
def c5Pkg : Integration :=
  { manifest := { name := "nginx", path := "packages/nginx/manifest.yml",
                  categories := ["web"], vars := [c5Var] },
    path := "packages/nginx" }

/-- A field with a locally declared normalize list, no normalizer, and an
ecs external reference whose resolved definition has Array set. -/
def c7Field : FleetField :=
  { name := "host.ip", type_ := "ip",
    normalize := GoVal.slice false [GoVal.str "lowercase"],
    external := "ecs", path := "fields.yml", line := 12, column := 3 }

def c7Ecs : EcsField :=
  { dataType := "ip", array := true, description := "Host ip addresses." }

/-- A variable whose default is an explicitly empty (non-nil) map. -/
def c8EmptyMapVar : Var := { name := "meta", default_ := GoVal.mapv false [] }

/-- A variable whose default is an explicitly empty (non-nil) list. -/
def c8EmptyListVar : Var :=
  { name := "paths", default_ := GoVal.slice false [] }

/-- A processor whose attribute map holds a value encoding/json cannot
marshal. -/
def procBad : Processor :=
  .mk "set" [("value", GoVal.unsupported)] [] "pipeline.yml" 4 3

def c9Pipeline : Pipeline :=
  { path := "default.yml", processors := [some procBad] }

def c9DataStream : DataStream :=
  { path := "packages/nginx/data_stream/access",
    pipelines := [("default", c9Pipeline)] }

/-- A package whose only pipeline processor fails attribute
serialization. -/
def c9Pkg : Integration :=
  { manifest := { name := "nginx", path := "packages/nginx/manifest.yml" },
    dataStreams := [c9DataStream], path := "packages/nginx" }

/-- An SQL engine model that accepts every insert. -/
def okOracle : Row → Option GoErr := fun _ => none

/-- The error insertPackage produces when a processor fails attribute
serialization: the MarshalAttributes wrap re-wrapped by the processor
loop, carrying no locator. -/
def c9MarshalErr : GoErr :=
  GoErr.wrap "failed to marshal processor attributes"
    (GoErr.wrap "failed to marshal processor attributes" jsonUnsupportedErr)

/-- The flat record of procBad as it reaches MarshalAttributes. -/
def fpBad : FlatProcessor :=
  ⟨"set", [("value", GoVal.unsupported)], "/processors" ++ "/" ++ "0" ++ "/" ++ "set",
   "pipeline.yml", 4, 3⟩

theorem flattenFrom_nil (bp : String) (i : Nat) :
    flattenFrom [] bp i = some ([], none) := rfl

theorem flattenFrom_cons_none (rest : List (Option Processor)) (bp : String)
    (i : Nat) :
    flattenFrom (none :: rest) bp i = flattenFrom rest bp (i + 1) := rfl

theorem flattenFrom_cons_some (p : Processor) (rest : List (Option Processor))
    (bp : String) (i : Nat) :
    flattenFrom (some p :: rest) bp i =
      match flattenOne p bp i with
      | none => none
      | some (_, some e) => some ([], some e)
      | some (selfRecs, none) =>
        match flattenFrom rest bp (i + 1) with
        | none => none
        | some (_, some e) => some ([], some e)
        | some (tailRecs, none) => some (selfRecs ++ tailRecs, none) := rfl

theorem find_append_self (m : List (String × GoVal)) (k : String) (v : GoVal)
    (h : m.any (fun kv => kv.1 == k) = false) :
    (m ++ [(k, v)]).find? (fun kv => kv.1 == k) = some (k, v) := by
  induction m with
  | nil => simp [List.find?]
  | cons kv rest ih =>
    simp only [List.any_cons, Bool.or_eq_false_iff] at h
    simpa [List.find?, h.1] using ih h.2

theorem find_overwrite (m : List (String × GoVal)) (k : String) (v : GoVal)
    (h : m.any (fun kv => kv.1 == k) = true) :
    ((m.map (fun kv => if kv.1 == k then (k, v) else kv)).find?
      (fun kv => kv.1 == k)) = some (k, v) := by
  induction m with
  | nil => simp at h
  | cons kv rest ih =>
    by_cases hk : kv.1 == k
    · simp [List.find?, hk]
    · simp only [List.any_cons, hk, Bool.false_or] at h
      simpa [List.find?, hk] using ih h

/-- Assigning a key in the Go map model and reading it back yields the
assigned value. -/
theorem mapGet_mapSet (m : List (String × GoVal)) (k : String) (v : GoVal) :
    mapGet (mapSet m k v) k = some v := by
  unfold mapGet mapSet
  split
  next h => rw [find_overwrite m k v h]; rfl
  next h =>
    rw [find_append_self m k v (by revert h; cases hb : m.any (fun kv => kv.1 == k) <;> simp)]
    rfl

/-- A successful on_failure summary means every branch entry was non-nil,
and the summary is exactly one type-keyed attribute object per entry. -/
theorem summaryList_some (ps : List (Option Processor)) (summ : List GoVal)
    (h : summaryList ps = some summ) :
    ∃ qs : List Processor, ps = qs.map some ∧
      summ = qs.map (fun q =>
        GoVal.mapv false [(q.type_, GoVal.mapv false q.attributes)]) := by
  induction ps generalizing summ with
  | nil =>
    refine ⟨[], rfl, ?_⟩
    simpa [summaryList] using h.symm
  | cons hd rest ih =>
    match hd with
    | none => simp [summaryList] at h
    | some (.mk t attrs onF path line col) =>
      rw [summaryList] at h
      cases htail : summaryList rest with
      | none => rw [htail] at h; exact absurd h (by simp)
      | some tail =>
        rw [htail] at h
        obtain ⟨qs, hqs, htl⟩ := ih tail htail
        refine ⟨⟨t, attrs, onF, path, line, col⟩ :: qs, by simp [hqs], ?_⟩
        simp only [Option.some.injEq] at h
        subst hqs
        simp [← h, htl, Processor.type_, Processor.attributes]

/-- Characterization of one successful loop iteration of the flattener:
the emitted records are the flattened branch followed by the own record,
whose pointer, provenance and attributes come from the node. -/
theorem flattenOne_char (p : Processor) (bp : String) (k : Nat)
    (recs : List FlatProcessor)
    (h : flattenOne p bp k = some (recs, none)) :
    ∃ branch rec,
      recs = branch ++ [rec] ∧
      rec.type_ = p.type_ ∧
      rec.jsonPointer = bp ++ "/" ++ toString k ++ "/" ++ p.type_ ∧
      rec.filePath = p.path ∧ rec.line = p.line ∧ rec.column = p.column ∧
      flattenFrom p.onFailure (rec.jsonPointer ++ "/on_failure") 0 =
        some (branch, none) ∧
      (p.onFailure = [] → rec.attributes = p.attributes) ∧
      (p.onFailure ≠ [] → ∃ summ, summaryList p.onFailure = some summ ∧
        rec.attributes = mapSet p.attributes "on_failure"
          (GoVal.slice false summ)) := by
  obtain ⟨t, attrs, onF, path, line, col⟩ := p
  simp only [flattenOne] at h
  by_cases hlen : onF.length > 0
  · rw [if_pos hlen] at h
    cases hof : flattenFrom onF (bp ++ "/" ++ toString k ++ "/" ++ t ++ "/on_failure") 0 with
    | none => rw [hof] at h; simp at h
    | some pr =>
      obtain ⟨branchRecs, be⟩ := pr
      rw [hof] at h
      cases be with
      | some e => simp at h
      | none =>
        cases hsum : summaryList onF with
        | none => rw [hsum] at h; simp at h
        | some summ =>
          rw [hsum] at h
          simp only [Option.some.injEq, Prod.mk.injEq] at h
          obtain ⟨hrecs, -⟩ := h
          refine ⟨branchRecs,
            ⟨t, mapSet attrs "on_failure" (GoVal.slice false summ),
             bp ++ "/" ++ toString k ++ "/" ++ t, path, line, col⟩,
            hrecs.symm, rfl, rfl, rfl, rfl, rfl, hof, ?_, ?_⟩
          · intro h0
            simp only [Processor.onFailure] at h0
            rw [h0] at hlen
            simp at hlen
          · intro _
            exact ⟨summ, hsum, rfl⟩
  · rw [if_neg hlen] at h
    have honf : onF = [] := List.length_eq_zero.mp (by omega)
    simp only [Option.some.injEq, Prod.mk.injEq] at h
    obtain ⟨hrecs, -⟩ := h
    subst honf
    exact ⟨[], ⟨t, attrs, bp ++ "/" ++ toString k ++ "/" ++ t, path, line, col⟩,
      by simpa using hrecs.symm, rfl, rfl, rfl, rfl, rfl, flattenFrom_nil _ _,
      fun _ => rfl, fun hne => absurd rfl hne⟩

/-- A successful error-free run of the flattener loop contains, for every
non-nil input entry at offset j, the records of exactly one successful
loop iteration at range index i + j, in input order. -/
theorem flattenFrom_split (ps : List (Option Processor)) :
    ∀ (bp : String) (i : Nat) (recs : List FlatProcessor),
      flattenFrom ps bp i = some (recs, none) →
      ∀ (j : Nat) (p : Processor), ps.get? j = some (some p) →
      ∃ pre selfRecs post,
        recs = pre ++ selfRecs ++ post ∧
        flattenOne p bp (i + j) = some (selfRecs, none) := by
  induction ps with
  | nil =>
    intro bp i recs _ j p hj
    simp at hj
  | cons hd rest ih =>
    intro bp i recs h j p hj
    cases hd with
    | none =>
      rw [flattenFrom_cons_none] at h
      cases j with
      | zero => simp at hj
      | succ j =>
        simp only [List.get?_cons_succ] at hj
        obtain ⟨pre, selfRecs, post, hdec, hone⟩ := ih bp (i + 1) recs h j p hj
        refine ⟨pre, selfRecs, post, hdec, ?_⟩
        have : i + 1 + j = i + (j + 1) := by omega
        rwa [this] at hone
    | some q =>
      rw [flattenFrom_cons_some] at h
      cases hq : flattenOne q bp i with
      | none => rw [hq] at h; simp at h
      | some pr =>
        obtain ⟨selfRecs, se⟩ := pr
        rw [hq] at h
        cases se with
        | some e => simp at h
        | none =>
          cases ht : flattenFrom rest bp (i + 1) with
          | none => rw [ht] at h; simp at h
          | some tpr =>
            obtain ⟨tailRecs, te⟩ := tpr
            rw [ht] at h
            cases te with
            | some e => simp at h
            | none =>
              simp only [Option.some.injEq, Prod.mk.injEq] at h
              obtain ⟨hrecs, -⟩ := h
              cases j with
              | zero =>
                simp only [List.get?_cons_zero, Option.some.injEq] at hj
                subst hj
                exact ⟨[], selfRecs, tailRecs, by simp [hrecs.symm],
                  by simpa using hq⟩
              | succ j =>
                simp only [List.get?_cons_succ] at hj
                obtain ⟨pre, sr, post, hdec, hone⟩ :=
                  ih bp (i + 1) tailRecs ht j p hj
                refine ⟨selfRecs ++ pre, sr, post, ?_, ?_⟩
                · rw [← hrecs, hdec]
                  simp
                · have : i + 1 + j = i + (j + 1) := by omega
                  rwa [this] at hone

/-- Whenever the flattener loop returns (does not panic), its Go error
result is nil: no branch of the source constructs a non-nil error. -/
theorem flattenFrom_err_none (ps : List (Option Processor)) (bp : String)
    (i : Nat) :
    ∀ recs err, flattenFrom ps bp i = some (recs, err) → err = none := by
  refine flattenFrom.induct
    (fun ps bp i => ∀ recs err, flattenFrom ps bp i = some (recs, err) →
      err = none)
    (fun p bp i => ∀ recs err, flattenOne p bp i = some (recs, err) →
      err = none)
    ?_ ?_ ?_ ?_ ?_ ?_ ?_ ?_ ?_ ?_ ?_ ?_ ps bp i
  · intro t attrs onF path line col basePath k
    dsimp only
    intro hlen hof ih recs err h
    simp only [flattenOne] at h
    rw [if_pos hlen, hof] at h
    simp at h
  · intro t attrs onF path line col basePath k
    dsimp only
    intro hlen fst e hof ih recs err h
    exact absurd (ih _ _ hof) (by simp)
  · intro t attrs onF path line col basePath k
    dsimp only
    intro hlen fl hof hsum ih recs err h
    simp only [flattenOne] at h
    rw [if_pos hlen, hof, hsum] at h
    simp at h
  · intro t attrs onF path line col basePath k
    dsimp only
    intro hlen fl hof summ hsum ih recs err h
    simp only [flattenOne] at h
    rw [if_pos hlen, hof, hsum] at h
    simp only [Option.some.injEq, Prod.mk.injEq] at h
    exact h.2.symm
  · intro t attrs onF path line col basePath k
    dsimp only
    intro hlen recs err h
    simp only [flattenOne] at h
    rw [if_neg hlen] at h
    simp only [Option.some.injEq, Prod.mk.injEq] at h
    exact h.2.symm
  · intro basePath k recs err h
    rw [flattenFrom_nil] at h
    simp only [Option.some.injEq, Prod.mk.injEq] at h
    exact h.2.symm
  · intro rest basePath k ih recs err h
    rw [flattenFrom_cons_none] at h
    exact ih _ _ h
  · intro p rest basePath k hone ih recs err h
    rw [flattenFrom_cons_some, hone] at h
    simp at h
  · intro p rest basePath k fst e hone ih recs err h
    exact absurd (ih _ _ hone) (by simp)
  · intro p rest basePath k fl hone hrest ih2 ih1 recs err h
    rw [flattenFrom_cons_some, hone, hrest] at h
    simp at h
  · intro p rest basePath k fl hone fst e hrest ih2 ih1 recs err h
    exact absurd (ih1 _ _ hrest) (by simp)
  · intro p rest basePath k fl hone tl hrest ih2 ih1 recs err h
    rw [flattenFrom_cons_some, hone, hrest] at h
    simp only [Option.some.injEq, Prod.mk.injEq] at h
    exact h.2.symm

/-- Claim C1 counterexample: on the concrete pipeline [A(fails to [B]), C]
with A = rename, B = set, C = convert, the flattened sequence is B, A, C,
but the locators carry the declared processor types, so they are not the
type-less values /processors/0/on_failure/0, /processors/0, /processors/1
stated by the claim. -/
theorem c1_locator_counterexample :
    ((FlattenProcessors [some procA, some procC] "/processors").map
      (fun r => r.1.map (fun fp => fp.jsonPointer)) =
        some ["/processors/0/rename/on_failure/0/set", "/processors/0/rename",
              "/processors/1/convert"]) ∧
    ¬ ((FlattenProcessors [some procA, some procC] "/processors").map
      (fun r => r.1.map (fun fp => fp.jsonPointer)) =
        some ["/processors/0/on_failure/0", "/processors/0", "/processors/1"]) := by
  exact ⟨rfl, by decide⟩

/-- Claim C1 (amended): for every pipeline of the shape
[A(fails to [B]), C], FlattenProcessors with base prefix /processors
returns exactly the sequence B, A, C with nil error, and the three
records carry the locators /processors/0/(type of A)/on_failure/0/(type
of B), /processors/0/(type of A) and /processors/1/(type of C); the A
record additionally embeds the branch summary under the on_failure
key. -/
theorem c1_flatten_order_amended (tA tB tC : String)
    (aA aB aC : List (String × GoVal)) (pA pB pC : String)
    (lA lB lC cA cB cC : Int) :
    FlattenProcessors
      [some (.mk tA aA [some (.mk tB aB [] pB lB cB)] pA lA cA),
       some (.mk tC aC [] pC lC cC)] "/processors" =
    some ([⟨tB, aB,
            "/processors" ++ "/" ++ "0" ++ "/" ++ tA ++ "/on_failure" ++
              "/" ++ "0" ++ "/" ++ tB, pB, lB, cB⟩,
           ⟨tA, mapSet aA "on_failure"
              (GoVal.slice false [GoVal.mapv false [(tB, GoVal.mapv false aB)]]),
            "/processors" ++ "/" ++ "0" ++ "/" ++ tA, pA, lA, cA⟩,
           ⟨tC, aC, "/processors" ++ "/" ++ "1" ++ "/" ++ tC, pC, lC, cC⟩],
          none) := rfl

/-- Claim C2: in every error-free flattening, the record of the non-nil
input node at index j has locator prefix/j/type built from the declared
type, and its non-empty failure branch is flattened with base prefix
equal to that locator extended by /on_failure, with those branch records
placed immediately before the own record. -/
theorem c2_locator_and_recursion (ps : List (Option Processor)) (bp : String)
    (recs : List FlatProcessor)
    (h : FlattenProcessors ps bp = some (recs, none))
    (j : Nat) (p : Processor) (hj : ps.get? j = some (some p)) :
    ∃ pre branch post rec,
      recs = pre ++ (branch ++ rec :: post) ∧
      rec.type_ = p.type_ ∧
      rec.jsonPointer = bp ++ "/" ++ toString j ++ "/" ++ p.type_ ∧
      FlattenProcessors p.onFailure (rec.jsonPointer ++ "/on_failure") =
        some (branch, none) := by
  obtain ⟨pre, selfRecs, post, hdec, hone⟩ :=
    flattenFrom_split ps bp 0 recs h j p hj
  rw [Nat.zero_add] at hone
  obtain ⟨branch, rec, hsr, hty, hptr, _, _, _, hbr, _, _⟩ :=
    flattenOne_char p bp j selfRecs hone
  exact ⟨pre, branch, post, rec, by rw [hdec, hsr]; simp, hty, hptr, hbr⟩

/-- Claim C2 witness: the single-processor pipeline at prefix
/processors. -/
theorem c2_witness :
    ∃ pre branch post rec,
      [(⟨"set", [], "/processors" ++ "/" ++ "0" ++ "/" ++ "set", "w.yml", 1, 2⟩ :
          FlatProcessor)] = pre ++ (branch ++ rec :: post) ∧
      rec.type_ = procW.type_ ∧
      rec.jsonPointer = "/processors" ++ "/" ++ toString 0 ++ "/" ++ procW.type_ ∧
      FlattenProcessors procW.onFailure (rec.jsonPointer ++ "/on_failure") =
        some (branch, none) :=
  c2_locator_and_recursion [some procW] "/processors"
    [⟨"set", [], "/processors" ++ "/" ++ "0" ++ "/" ++ "set", "w.yml", 1, 2⟩]
    rfl 0 procW rfl

/-- Claim C3: in every error-free flattening, a node with a non-empty
failure branch has all branch records strictly before its own record, and
its own attribute map carries, under the reserved on_failure key, the
summary of the immediate branch built from each branch processor type and
attributes only, with no file, line or column provenance. -/
theorem c3_branch_before_parent_summary (ps : List (Option Processor))
    (bp : String) (recs : List FlatProcessor)
    (h : FlattenProcessors ps bp = some (recs, none))
    (j : Nat) (p : Processor) (hj : ps.get? j = some (some p))
    (hne : p.onFailure ≠ []) :
    ∃ pre branch post rec, ∃ qs : List Processor,
      recs = pre ++ (branch ++ rec :: post) ∧
      FlattenProcessors p.onFailure (rec.jsonPointer ++ "/on_failure") =
        some (branch, none) ∧
      p.onFailure = qs.map some ∧
      mapGet rec.attributes "on_failure" =
        some (GoVal.slice false (qs.map (fun q =>
          GoVal.mapv false [(q.type_, GoVal.mapv false q.attributes)]))) := by
  obtain ⟨pre, selfRecs, post, hdec, hone⟩ :=
    flattenFrom_split ps bp 0 recs h j p hj
  rw [Nat.zero_add] at hone
  obtain ⟨branch, rec, hsr, _, _, _, _, _, hbr, _, hsumm⟩ :=
    flattenOne_char p bp j selfRecs hone
  obtain ⟨summ, hsl, hattrs⟩ := hsumm hne
  obtain ⟨qs, hqs, hsq⟩ := summaryList_some p.onFailure summ hsl
  refine ⟨pre, branch, post, rec, qs, by rw [hdec, hsr]; simp, hbr, hqs, ?_⟩
  rw [hattrs, mapGet_mapSet, hsq]

/-- Claim C3 witness: the rename processor with the one-element set
branch. -/
theorem c3_witness :
    ∃ pre branch post rec, ∃ qs : List Processor,
      [(⟨"set", [("field", GoVal.str "error.message")],
          "/processors" ++ "/" ++ "0" ++ "/" ++ "rename" ++ "/on_failure" ++
            "/" ++ "0" ++ "/" ++ "set", "p.yml", 5, 9⟩ : FlatProcessor),
       ⟨"rename",
        [("field", GoVal.str "old"),
         ("on_failure", GoVal.slice false
           [GoVal.mapv false
             [("set", GoVal.mapv false [("field", GoVal.str "error.message")])]])],
        "/processors" ++ "/" ++ "0" ++ "/" ++ "rename", "p.yml", 3, 7⟩] =
          pre ++ (branch ++ rec :: post) ∧
      FlattenProcessors procA.onFailure (rec.jsonPointer ++ "/on_failure") =
        some (branch, none) ∧
      procA.onFailure = qs.map some ∧
      mapGet rec.attributes "on_failure" =
        some (GoVal.slice false (qs.map (fun q =>
          GoVal.mapv false [(q.type_, GoVal.mapv false q.attributes)]))) :=
  c3_branch_before_parent_summary [some procA] "/processors" _ rfl 0 procA rfl
    (List.cons_ne_nil _ _)

/-- Claim C4: a nil entry in the input produces no record and leaves the
range index untouched for later entries; in particular, for the input
[nil, X] the record of X carries locator index 1, not 0. -/
theorem c4_nil_skip_index :
    (∀ (rest : List (Option Processor)) (bp : String) (i : Nat),
      flattenFrom (none :: rest) bp i = flattenFrom rest bp (i + 1)) ∧
    (∀ (t : String) (attrs : List (String × GoVal)) (path : String)
      (line col : Int) (bp : String),
      FlattenProcessors [none, some (.mk t attrs [] path line col)] bp =
        some ([⟨t, attrs, bp ++ "/" ++ "1" ++ "/" ++ t, path, line, col⟩],
          none)) :=
  ⟨fun rest bp i => flattenFrom_cons_none rest bp i,
   fun _ _ _ _ _ _ => rfl⟩

/-- Claim C10: whenever FlattenProcessors returns, its error result is
nil, for every input list and base prefix. -/
theorem c10_no_error (ps : List (Option Processor)) (bp : String)
    (recs : List FlatProcessor) (err : Option GoErr)
    (h : FlattenProcessors ps bp = some (recs, err)) : err = none :=
  flattenFrom_err_none ps bp 0 recs err h

/-- Claim C10 witness: a concrete run returns with a nil error. -/
theorem c10_witness :
    ∃ recs err, FlattenProcessors [some procW] "/processors" =
      some (recs, err) ∧ err = none :=
  ⟨[⟨"set", [], "/processors" ++ "/" ++ "0" ++ "/" ++ "set", "w.yml", 1, 2⟩],
   none, rfl, c10_no_error [some procW] "/processors" _ none rfl⟩

/-- txDone rollback behavior at the insertPackage boundary: whenever the
package body returns an error, the deferred txDone rolls the transaction
back and the database is returned unchanged. -/
theorem insertPackage_rollback (oracle : Row → Option GoErr) (db : DB)
    (pkg : Integration) (db1 : DB) (e : GoErr)
    (h : insertPackage oracle db pkg = .ok (db1, some e)) : db1 = db := by
  unfold insertPackage at h
  cases hb : insertPackageBody oracle ⟨db.rows, db.nextId⟩ pkg with
  | crash => rw [hb] at h; exact absurd h (by simp)
  | err e2 =>
    rw [hb] at h
    simp only [GoOutcome.ok.injEq, Prod.mk.injEq] at h
    exact h.1.symm
  | ok tx =>
    rw [hb] at h
    simp only [GoOutcome.ok.injEq, Prod.mk.injEq] at h
    exact absurd h.2 (by simp)

/-- The write loop stops at the first failing package: the returned error
wraps that package error with the quoted base name of its path, and the
returned database is the state from just before that package. -/
theorem writeLoop_err_char (oracle : Row → Option GoErr)
    (pkgs : List Integration) :
    ∀ (db db1 : DB) (e : GoErr),
      writeLoop oracle db pkgs = .ok (db1, some e) →
      ∃ pkg db0 e0, pkg ∈ pkgs ∧
        insertPackage oracle db0 pkg = .ok (db0, some e0) ∧
        e = GoErr.wrap
          ("failed inserting " ++ strconvQuote (filepathBase pkg.path)) e0 ∧
        db1 = db0 := by
  induction pkgs with
  | nil =>
    intro db db1 e h
    rw [writeLoop] at h
    simp at h
  | cons pkg rest ih =>
    intro db db1 e h
    rw [writeLoop] at h
    cases hins : insertPackage oracle db pkg with
    | crash => rw [hins] at h; exact absurd h (by simp)
    | err e2 => rw [hins] at h; exact absurd h (by simp)
    | ok pr =>
      obtain ⟨db2, oe⟩ := pr
      rw [hins] at h
      cases oe with
      | some e2 =>
        simp only [GoOutcome.ok.injEq, Prod.mk.injEq, Option.some.injEq] at h
        have hdb : db2 = db := insertPackage_rollback oracle db pkg db2 e2 hins
        subst hdb
        exact ⟨pkg, db2, e2, List.mem_cons_self _ _, hins, h.2.symm, h.1.symm⟩
      | none =>
        obtain ⟨pkg2, db0, e0, hmem, hins2, hwrap, hdb⟩ := ih db2 db1 e h
        exact ⟨pkg2, db0, e0, List.mem_cons_of_mem _ hmem, hins2, hwrap, hdb⟩

/-- Claim C5: a package whose insertion fails contributes no rows (the
transaction is rolled back, leaving the database exactly as before the
package), and the error surfaced by the WritePackages loop wraps the
underlying error with the quoted base name of the failing package
directory. -/
theorem c5_atomic_package_write :
    (∀ (oracle : Row → Option GoErr) (db : DB) (pkg : Integration)
       (db1 : DB) (e : GoErr),
       insertPackage oracle db pkg = .ok (db1, some e) → db1 = db) ∧
    (∀ (oracle : Row → Option GoErr) (db db1 : DB) (pkgs : List Integration)
       (e : GoErr),
       writeLoop oracle db pkgs = .ok (db1, some e) →
       ∃ pkg db0 e0, pkg ∈ pkgs ∧
         insertPackage oracle db0 pkg = .ok (db0, some e0) ∧
         e = GoErr.wrap
           ("failed inserting " ++ strconvQuote (filepathBase pkg.path)) e0 ∧
         db1 = db0) :=
  ⟨insertPackage_rollback,
   fun oracle db db1 pkgs e h => writeLoop_err_char oracle pkgs db db1 e h⟩

/-- Claim C5 witness: a backend that rejects the vars-row insert for a
concrete one-variable package: the database comes back unchanged and the
loop error wraps the engine error naming directory nginx. -/
theorem c5_witness :
    ((⟨false, [], 1⟩ : DB) = ⟨false, [], 1⟩) ∧
    (∃ pkg db0 e0, pkg ∈ [c5Pkg] ∧
      insertPackage c5Oracle db0 pkg = .ok (db0, some e0) ∧
      GoErr.wrap ("failed inserting " ++ strconvQuote (filepathBase c5Pkg.path))
          (GoErr.msg "UNIQUE constraint failed: vars.id") =
        GoErr.wrap
          ("failed inserting " ++ strconvQuote (filepathBase pkg.path)) e0 ∧
      (⟨true, [], 1⟩ : DB) = db0) :=
  ⟨c5_atomic_package_write.1 c5Oracle ⟨false, [], 1⟩ c5Pkg ⟨false, [], 1⟩
      (GoErr.msg "UNIQUE constraint failed: vars.id") rfl,
   c5_atomic_package_write.2 c5Oracle ⟨true, [], 1⟩ ⟨true, [], 1⟩ [c5Pkg]
      (GoErr.wrap
        ("failed inserting " ++ strconvQuote (filepathBase c5Pkg.path))
        (GoErr.msg "UNIQUE constraint failed: vars.id")) rfl⟩

/-- Claim C6: a query executed while the shared store reference is still
unset receives the structured not-ready result, which is a distinct
outcome from every query error and from every row payload. -/
theorem c6_not_ready_signal (statement : String) :
    executeQuery none statement = QueryOutcome.notReady ∧
    (∀ m, QueryOutcome.notReady ≠ QueryOutcome.queryError m) ∧
    (∀ rs, QueryOutcome.notReady ≠ QueryOutcome.rows rs) := by
  refine ⟨rfl, ?_, ?_⟩
  · intro m h
    exact QueryOutcome.noConfusion h
  · intro rs h
    exact QueryOutcome.noConfusion h

/-- Claim C7: the normalize backfill in insertField guards on the
Normalizer column instead of the Normalize column, so a locally declared
normalize list is overwritten by the external array marker, while the
locally declared type is kept.  Evaluated at the failing input. -/
theorem c7_normalize_overwrite_bug :
    jsonNullString c7Field.normalize = some "[\"lowercase\"]" ∧
    (insertFieldParams c7Field (some c7Ecs)).normalize = some "[\"array\"]" ∧
    (insertFieldParams c7Field (some c7Ecs)).normalize ≠
      jsonNullString c7Field.normalize ∧
    (insertFieldParams c7Field (some c7Ecs)).type_ = some "ip" :=
  ⟨rfl, rfl, by decide, rfl⟩

/-- Claim C8 counterexample: a variable whose default is an explicitly
empty non-nil map is stored as the empty-object literal, not as null, so
the claim fails for empty maps. -/
theorem c8_empty_map_counterexample :
    (insertVarParams c8EmptyMapVar).defaultValue = some "\x7b\x7d" ∧
    (insertVarParams c8EmptyMapVar).defaultValue ≠ none :=
  ⟨rfl, by decide⟩

/-- Claim C8 (amended): empty and nil slices and the absent value are
stored as null, and a variable with an explicitly empty default list is
stored with a null default, identically to one with no default at all;
an empty non-nil map, however, is stored as the empty-object literal. -/
theorem c8_empty_slice_null_amended :
    (∀ es, jsonNullString (GoVal.slice true es) = none) ∧
    jsonNullString (GoVal.slice false []) = none ∧
    jsonNullString GoVal.nilAny = none ∧
    (∀ v : Var, v.default_ = GoVal.slice false [] →
      (insertVarParams v).defaultValue = none ∧
      (insertVarParams v).defaultValue =
        (insertVarParams { v with default_ := GoVal.nilAny }).defaultValue) := by
  refine ⟨fun es => rfl, rfl, rfl, fun v h => ?_⟩
  have hv : (insertVarParams v).defaultValue = jsonNullString v.default_ := rfl
  rw [hv, h]
  exact ⟨rfl, rfl⟩

/-- Claim C8 witness: the variable with the explicitly empty default
list. -/
theorem c8_witness :
    (insertVarParams c8EmptyListVar).defaultValue = none ∧
    (insertVarParams c8EmptyListVar).defaultValue =
      (insertVarParams
        { c8EmptyListVar with default_ := GoVal.nilAny }).defaultValue :=
  c8_empty_slice_null_amended.2.2.2 c8EmptyListVar rfl

set_option maxRecDepth 8000 in
/-- Claim C9 counterexample: for the concrete package whose only pipeline
processor carries an unmarshalable attribute, insertPackage aborts with
the fixed double wrap of the serialization error; the failure does not
mention the locator /processors/0/set of the offending node (rollback
still leaves the database unchanged). -/
theorem c9_error_lacks_locator_counterexample :
    insertPackage okOracle ⟨true, [], 1⟩ c9Pkg =
      .ok (⟨true, [], 1⟩, some c9MarshalErr) ∧
    ¬ (("/processors" ++ "/" ++ "0" ++ "/" ++ "set").toList <:+:
        (GoErr.render c9MarshalErr).toList) := by
  constructor
  · rfl
  · decide

/-- Claim C9 (amended): a failed attribute serialization during pipeline
ingestion aborts the package with an error that wraps the serialization
failure under the fixed note failed to marshal processor attributes,
carrying no information about the offending node or its locator, and the
package transaction is rolled back so nothing is persisted. -/
theorem c9_wrapped_error_rollback_amended :
    (∀ (fp : FlatProcessor) (s : String) (e : GoErr),
      MarshalAttributes fp = (s, some e) →
      e = GoErr.wrap "failed to marshal processor attributes"
        jsonUnsupportedErr) ∧
    (∀ (oracle : Row → Option GoErr) (db : DB) (pkg : Integration)
       (db1 : DB) (e : GoErr),
       insertPackage oracle db pkg = .ok (db1, some e) → db1 = db) := by
  refine ⟨fun fp s e h => ?_, insertPackage_rollback⟩
  unfold MarshalAttributes at h
  split at h
  · simp at h
  · split at h
    · simp at h
    · simp only [Prod.mk.injEq, Option.some.injEq] at h
      exact h.2.symm

/-- Claim C9 witness: the concrete unmarshalable processor record and the
concrete aborted package. -/
theorem c9_witness :
    (GoErr.wrap "failed to marshal processor attributes" jsonUnsupportedErr =
      GoErr.wrap "failed to marshal processor attributes" jsonUnsupportedErr) ∧
    ((⟨true, [], 1⟩ : DB) = ⟨true, [], 1⟩) :=
  ⟨c9_wrapped_error_rollback_amended.1 fpBad ""
      (GoErr.wrap "failed to marshal processor attributes" jsonUnsupportedErr)
      rfl,
   c9_wrapped_error_rollback_amended.2 okOracle ⟨true, [], 1⟩ c9Pkg
      ⟨true, [], 1⟩ c9MarshalErr rfl⟩
